import Mathlib

/-!
Verification of the document-structuring and chart-configuration pipeline of a
multi-modal document intelligence dashboard.

The development shallowly embeds the pure transformation core of the
application:

* `clean_text` — whitespace normalisation of extracted text
  (`src/nav/doc2text.py`, `clean_text`);
* `structure_text` — heuristic / AI-assisted sectioning of cleaned text
  (`src/nav/doc2text.py`, `structure_text`), including an executable model of
  the six heading regexes and of Python `re.split`;
* `unique_headers` — table-header deduplication (`src/nav/doc2text.py`,
  table display loop);
* `validate_columns`, aggregation and pie/column chart data preparation
  (`src/nav/data2visual.py`).

Strings are modelled as `List Char` where character-level induction is needed
and as `String` where they are opaque labels.  Numeric cells of the data
frames are modelled as rationals.
-/

/-- The whitespace characters recognised by Python's `\s` regex class and by
`str.split()` / `str.strip()` for ASCII text. -/
def isSpaceChar (c : Char) : Bool :=
  c == ' ' || c == '\t' || c == '\n' || c == '\r' || c == '\x0b' || c == '\x0c'

/-- Worker for `collapseWs`; the flag records whether the previously read
character belonged to a whitespace run whose single replacement space has
already been emitted. -/
def collapseWsAux : Bool → List Char → List Char
  | _, [] => []
  | b, c :: cs =>
    if isSpaceChar c then (if b then [] else [' ']) ++ collapseWsAux true cs
    else c :: collapseWsAux false cs

/-- `re.sub(r'\s+', ' ', text)`: every maximal run of whitespace characters is
replaced by a single space. -/
def collapseWs (s : List Char) : List Char :=
  collapseWsAux false s

/-- The replacement emitted for a maximal run of `n` newlines by
`re.sub(r'\n{3,}', '\n\n', text)`: runs of three or more newlines become two
newlines, shorter runs are kept. -/
def emitNl (n : Nat) : List Char :=
  if 3 ≤ n then ['\n', '\n'] else List.replicate n '\n'

/-- Worker for `limitNewlines`; `n` counts the newlines of the current run
that are pending output. -/
def limitNlAux : Nat → List Char → List Char
  | n, [] => emitNl n
  | n, c :: cs =>
    if c == '\n' then limitNlAux (n + 1) cs
    else emitNl n ++ c :: limitNlAux 0 cs

/-- `re.sub(r'\n{3,}', '\n\n', text)`: every maximal run of three or more
newline characters is replaced by exactly two newlines. -/
def limitNewlines (s : List Char) : List Char :=
  limitNlAux 0 s

/-- Python `str.strip()`: drop leading and trailing whitespace. -/
def pyStrip (s : List Char) : List Char :=
  ((s.dropWhile isSpaceChar).reverse.dropWhile isSpaceChar).reverse

/-- Worker for `pySplit`; `cur` is the reversed chunk of non-whitespace
characters read since the last whitespace. -/
def pySplitAux : List Char → List Char → List (List Char)
  | cur, [] => if cur.isEmpty then [] else [cur.reverse]
  | cur, c :: cs =>
    if isSpaceChar c then
      (if cur.isEmpty then [] else [cur.reverse]) ++ pySplitAux [] cs
    else pySplitAux (c :: cur) cs

/-- Python `str.split()` (no argument): the maximal runs of non-whitespace
characters, in order. -/
def pySplit (s : List Char) : List (List Char) :=
  pySplitAux [] s

/-- `clean_text` from `src/nav/doc2text.py`: first `re.sub(r'\s+', ' ', text)`,
then `re.sub(r'\n{3,}', '\n\n', text)`, then `text.strip()`. -/
def clean_text (s : List Char) : List Char :=
  pyStrip (limitNewlines (collapseWs s))

example : clean_text "A\n\n\nB".data = "A B".data := by decide
example : clean_text "  x   y  ".data = "x y".data := by decide
example : pySplit "  a bc  d ".data = ["a".data, "bc".data, "d".data] := by decide

/-! ## A small regex engine

The six heading regexes of `structure_text` and the paragraph regex
`\n\s*\n` are all concatenations of single-character classes, each quantified
by exactly-one, `*`, or `+`.  The engine below implements Python's
leftmost-greedy backtracking semantics for this fragment, which suffices to
model `re.split` for those patterns. -/

/-- The character classes occurring in the heading patterns. -/
inductive CClass where
  | ws          -- `\s`
  | nl          -- `\n`
  | upper       -- `[A-Z]`
  | upperNumSp  -- `[A-Z0-9 ]`
  | digit       -- `\d`
  | notNl       -- `[^\n]`
  | dashEq      -- `[-=]`
  | bullet      -- `[•■♦●]`
  | lit (c : Char)
deriving DecidableEq, Repr

/-- Membership of a character in a class (ASCII reading, as in the source
documents). -/
def cmatch : CClass → Char → Bool
  | .ws, c => isSpaceChar c
  | .nl, c => c == '\n'
  | .upper, c => decide ('A' ≤ c ∧ c ≤ 'Z')
  | .upperNumSp, c => decide ('A' ≤ c ∧ c ≤ 'Z') || decide ('0' ≤ c ∧ c ≤ '9') || c == ' '
  | .digit, c => decide ('0' ≤ c ∧ c ≤ '9')
  | .notNl, c => c != '\n'
  | .dashEq, c => c == '-' || c == '='
  | .bullet, c => c == '•' || c == '■' || c == '♦' || c == '●'
  | .lit d, c => c == d

/-- Quantifier of one atom: exactly one, `*`, or `+`. -/
inductive Quant where
  | one
  | star
  | plus
deriving DecidableEq, Repr

/-- One quantified character class. -/
structure Atom where
  cls : CClass
  q : Quant
deriving DecidableEq, Repr

/-- A pattern of the fragment: a concatenation of atoms. -/
abbrev RePattern := List Atom

/-- Try to match a pattern at the start of `s`, returning the remainder of the
string after the match chosen first by Python's backtracking (greedy
quantifiers try the longest repetition first). -/
def matchAtoms : RePattern → List Char → Option (List Char)
  | [], s => some s
  | ⟨c, .one⟩ :: as, s =>
    match s with
    | [] => none
    | x :: rest => if cmatch c x then matchAtoms as rest else none
  | ⟨c, .star⟩ :: as, s =>
    let n := (s.takeWhile (cmatch c)).length
    ((List.range (n + 1)).map (fun j => n - j)).findSome? fun i =>
      matchAtoms as (s.drop i)
  | ⟨c, .plus⟩ :: as, s =>
    let n := (s.takeWhile (cmatch c)).length
    ((List.range n).map (fun j => n - j)).findSome? fun i =>
      matchAtoms as (s.drop i)

/-- Find the leftmost match of `p` in `s`: returns the text before the match
and the remainder after it. -/
def findFirstMatch (p : RePattern) : List Char → Option (List Char × List Char)
  | [] =>
    match matchAtoms p [] with
    | some rest => some ([], rest)
    | none => none
  | c :: cs =>
    match matchAtoms p (c :: cs) with
    | some rest => some ([], rest)
    | none => (findFirstMatch p cs).map fun pr => (c :: pr.1, pr.2)

/-- Fuelled worker for `reSplit`. -/
def reSplitAux (p : RePattern) : Nat → List Char → List (List Char)
  | 0, s => [s]
  | fuel + 1, s =>
    match findFirstMatch p s with
    | none => [s]
    | some (pre, post) => pre :: reSplitAux p fuel post

/-- Python `re.split(pattern, s)` for the patterns of this fragment (none of
which can match the empty string, so `s.length + 1` rounds of splitting always
suffice). -/
def reSplit (p : RePattern) (s : List Char) : List (List Char) :=
  reSplitAux p (s.length + 1) s

/-- `r'\n\s*\n\s*[A-Z][A-Z0-9 ]+\s*\n\s*\n'` — all-caps headings. -/
def patAllCaps : RePattern :=
  [⟨.nl, .one⟩, ⟨.ws, .star⟩, ⟨.nl, .one⟩, ⟨.ws, .star⟩, ⟨.upper, .one⟩,
   ⟨.upperNumSp, .plus⟩, ⟨.ws, .star⟩, ⟨.nl, .one⟩, ⟨.ws, .star⟩, ⟨.nl, .one⟩]

/-- `r'\n\s*\d+\.\s+[A-Z][^\n]+\s*\n'` — numbered headings. -/
def patNumbered : RePattern :=
  [⟨.nl, .one⟩, ⟨.ws, .star⟩, ⟨.digit, .plus⟩, ⟨.lit '.', .one⟩, ⟨.ws, .plus⟩,
   ⟨.upper, .one⟩, ⟨.notNl, .plus⟩, ⟨.ws, .star⟩, ⟨.nl, .one⟩]

/-- `r'\n\s*[A-Z][^\n]+\s*\n[-=]+\s*\n'` — underlined headings. -/
def patUnderlined : RePattern :=
  [⟨.nl, .one⟩, ⟨.ws, .star⟩, ⟨.upper, .one⟩, ⟨.notNl, .plus⟩, ⟨.ws, .star⟩,
   ⟨.nl, .one⟩, ⟨.dashEq, .plus⟩, ⟨.ws, .star⟩, ⟨.nl, .one⟩]

/-- `r'\n\s*[A-Z][^\n]+:\s*\n'` — headings ending with a colon. -/
def patColon : RePattern :=
  [⟨.nl, .one⟩, ⟨.ws, .star⟩, ⟨.upper, .one⟩, ⟨.notNl, .plus⟩,
   ⟨.lit ':', .one⟩, ⟨.ws, .star⟩, ⟨.nl, .one⟩]

/-- `r'\n\s*[•■♦●]\s+[A-Z][^\n]+\s*\n'` — bullet point headings. -/
def patBullet : RePattern :=
  [⟨.nl, .one⟩, ⟨.ws, .star⟩, ⟨.bullet, .one⟩, ⟨.ws, .plus⟩, ⟨.upper, .one⟩,
   ⟨.notNl, .plus⟩, ⟨.ws, .star⟩, ⟨.nl, .one⟩]

/-- `r'\n\s*\n\s*[A-Z][^\n]+\s*\n\s*\n'` — regular headings with spacing. -/
def patSpaced : RePattern :=
  [⟨.nl, .one⟩, ⟨.ws, .star⟩, ⟨.nl, .one⟩, ⟨.ws, .star⟩, ⟨.upper, .one⟩,
   ⟨.notNl, .plus⟩, ⟨.ws, .star⟩, ⟨.nl, .one⟩, ⟨.ws, .star⟩, ⟨.nl, .one⟩]

/-- The `section_patterns` list of `structure_text`, in priority order. -/
def section_patterns : List RePattern :=
  [patAllCaps, patNumbered, patUnderlined, patColon, patBullet, patSpaced]

/-- `r'\n\s*\n'` — the blank-line paragraph separator. -/
def patParagraph : RePattern :=
  [⟨.nl, .one⟩, ⟨.ws, .star⟩, ⟨.nl, .one⟩]

example :
    reSplit patParagraph "ab\n\ncd\n \ne".data = ["ab".data, "cd".data, "e".data] := by
  decide

example :
    reSplit patColon "a b c\nMY HEADING:\nd e f\n".data =
      ["a b c".data, "d e f\n".data] := by
  decide

/-! ## Document structuring -/

/-- A structured section as produced by `structure_text`; `type_` models the
dictionary key `type`. -/
structure StructuredSection where
  content : List Char
  type_ : String
  length : Nat
  heading : String
deriving DecidableEq, Repr

/-- The filter and constructor applied by the fallback loops of
`structure_text` to each split segment: segments whose stripped form is empty
or that have at most 5 whitespace-separated tokens are dropped; the rest
become sections of the given type with stripped content, its character length,
and an empty heading. -/
def keptSections (segs : List (List Char)) (ty : String) : List StructuredSection :=
  (segs.filter fun seg =>
      decide (0 < (pyStrip seg).length) && decide (5 < (pySplit seg).length)).map
    fun seg => ⟨pyStrip seg, ty, (pyStrip seg).length, ""⟩

/-- The `for pattern in section_patterns` loop: the first pattern whose
`re.split` yields more than one segment contributes its kept segments (type
`"section"`), and the loop breaks; later patterns are ignored. -/
def loopPatterns (t : List Char) : List RePattern → List StructuredSection
  | [] => []
  | p :: ps =>
    let segs := reSplit p t
    if 1 < segs.length then keptSections segs "section" else loopPatterns t ps

/-- The regex fallback of `structure_text`, entered with the sections
`s0` already accumulated (empty unless the AI conversion loop raised after
appending some sections): runs the pattern loop, and if the accumulated list
is still empty afterwards, splits on blank-line paragraphs (type
`"paragraph"`). -/
def fallbackStructure (s0 : List StructuredSection) (t : List Char) :
    List StructuredSection :=
  let s1 := s0 ++ loopPatterns t section_patterns
  if s1.isEmpty then keptSections (reSplit patParagraph t) "paragraph" else s1

/-- One entry of the `sections` array of the parsed AI response.  A `good`
entry is a JSON object whose `content` field is absent or a string (the
`type` and `heading` fields default to `"section"` and `""` via `.get`); a
`bad` entry is any value on which the conversion loop raises (a non-object
entry, or a non-string `content` on which `.strip()` fails). -/
inductive JsonEntry where
  | good (content : Option (List Char)) (ty : Option String) (heading : Option String)
  | bad
deriving DecidableEq, Repr

/-- The conversion loop over `ai_structure.get('sections', [])`: each good
entry whose stripped content is non-empty and has more than 5 tokens becomes a
section; a bad entry raises, so conversion stops there and the Boolean
component records that an exception escaped to the enclosing handler. -/
def convertAI : List JsonEntry → List StructuredSection × Bool
  | [] => ([], false)
  | .bad :: _ => ([], true)
  | .good c ty h :: rest =>
    let content := pyStrip (c.getD [])
    let here : List StructuredSection :=
      if 0 < content.length ∧ 5 < (pySplit content).length then
        [⟨content, ty.getD "section", content.length, h.getD ""⟩]
      else []
    let r := convertAI rest
    (here ++ r.1, r.2)

/-- The outcome of the AI-assisted attempt, an input to `structure_text`:
`noAI` when no client is configured or the text has at most 500 characters
(the call is not attempted), `failEarly` when the call or `json.loads` raises
before the conversion loop runs, and `response es` when a `sections` array
(possibly defaulted to `[]` by `.get`) reaches the conversion loop. -/
inductive AIOutcome where
  | noAI
  | failEarly
  | response (entries : List JsonEntry)
deriving DecidableEq, Repr

/-- `structure_text` from `src/nav/doc2text.py`.  On a successful conversion
with at least one surviving section those sections are returned; otherwise the
regex fallback runs, seeded with whatever sections the conversion loop had
appended before raising. -/
def structure_text (outcome : AIOutcome) (text : List Char) : List StructuredSection :=
  match outcome with
  | .noAI => fallbackStructure [] text
  | .failEarly => fallbackStructure [] text
  | .response es =>
    let r := convertAI es
    if r.2 then fallbackStructure r.1 text
    else if r.1.isEmpty then fallbackStructure [] text else r.1

example :
    structure_text .noAI "a b c d e f g".data =
      [⟨"a b c d e f g".data, "paragraph", 13, ""⟩] := by
  decide

/-! ## Table header sanitisation -/

/-- Assignment into the `seen` dictionary: overwrite the first binding of the
key, or append a new binding. -/
def setSeen : List (String × Nat) → String → Nat → List (String × Nat)
  | [], k, v => [(k, v)]
  | (k', v') :: rest, k, v =>
    if k' = k then (k, v) :: rest else (k', v') :: setSeen rest k v

/-- Worker for `unique_headers`: `seen` is the dictionary of already assigned
labels with their repeat counters, `i` the 0-based position of the next header
cell.  A missing (`NaN`) or empty cell becomes `Column_<i+1>`; a repeat of an
earlier label `h` becomes `h_<counter>`; a fresh label is kept as is. -/
def uniqueHeadersAux (seen : List (String × Nat)) (i : Nat) :
    List (Option String) → List String
  | [] => []
  | h :: rest =>
    match h with
    | none => ("Column_" ++ Nat.repr (i + 1)) :: uniqueHeadersAux seen (i + 1) rest
    | some s =>
      if s = "" then
        ("Column_" ++ Nat.repr (i + 1)) :: uniqueHeadersAux seen (i + 1) rest
      else
        match List.lookup s seen with
        | some k =>
          (s ++ "_" ++ Nat.repr (k + 1)) :: uniqueHeadersAux (setSeen seen s (k + 1)) (i + 1) rest
        | none => s :: uniqueHeadersAux (setSeen seen s 0) (i + 1) rest

/-- The header deduplication loop of the table display in
`src/nav/doc2text.py` ("Generate unique column names"); a `none` cell models a
`NaN` raw header cell. -/
def unique_headers (headers : List (Option String)) : List String :=
  uniqueHeadersAux [] 0 headers

example :
    unique_headers [some "A", none, some "A", some ""] =
      ["A", "Column_2", "A_1", "Column_4"] := by
  decide

/-! ## Chart configuration: validation and aggregation -/

/-- One column of a loaded data frame: its name, whether pandas classifies its
dtype as numeric, and whether it contains missing values. -/
structure FrameColumn where
  name : String
  numeric : Bool
  hasNull : Bool
deriving DecidableEq, Repr

/-- A loaded data frame, reduced to the per-column facts that validation
inspects. -/
abbrev Frame := List FrameColumn

/-- The four chart types of the radio selector. -/
inductive ChartType where
  | column
  | pie
  | line
  | scatter
deriving DecidableEq, Repr

/-- The display name of a chart type, as interpolated into error messages. -/
def chartTypeName : ChartType → String
  | .column => "Column Chart"
  | .pie => "Pie Chart"
  | .line => "Line Chart"
  | .scatter => "Scatter Plot"

/-- `df.select_dtypes(include=[np.number]).columns.tolist()`. -/
def numericCols (df : Frame) : List String :=
  (df.filter fun c => c.numeric).map fun c => c.name

/-- `df.select_dtypes(exclude=[np.number]).columns.tolist()`. -/
def categoryCols (df : Frame) : List String :=
  (df.filter fun c => !c.numeric).map fun c => c.name

/-- `df[col].isnull().any()`.  A name not present in the frame is treated as
having no nulls; the page only passes names of existing columns. -/
def colHasNull (df : Frame) (name : String) : Bool :=
  match df.find? fun c => c.name == name with
  | some c => c.hasNull
  | none => false

/-- The error collected for a selected column containing missing values. -/
def missingValueError (col : String) : String :=
  "Column \x27" ++ col ++ "\x27 contains missing values"

/-- The `for col in [x_col, y_col, color_col]` missing-value loop of
`validate_columns` (`None` entries are skipped). -/
def nullErrors (df : Frame) (cols : List (Option String)) : List String :=
  cols.foldr
    (fun c acc =>
      match c with
      | none => acc
      | some col => (if colHasNull df col then [missingValueError col] else []) ++ acc)
    []

/-- The chart-type specific error list of `validate_columns`.  Note that for
scatter and line charts a `None` y-selection also fails the
`y_col not in numeric_cols` test. -/
def chartTypeErrors (df : Frame) (ct : ChartType) (x : String)
    (y : Option String) (color : Option String) : List String :=
  let numeric := numericCols df
  let category := categoryCols df
  match ct with
  | .column =>
    if x ∉ category then
      ["X-axis must be a categorical column for " ++ chartTypeName .column]
    else []
  | .pie =>
    (if x ∉ category then
       ["X-axis must be a categorical column for " ++ chartTypeName .pie]
     else []) ++
    (match y with
     | some yc => if yc ∉ numeric then ["Value column must be numeric for Pie Charts"] else []
     | none => [])
  | .scatter =>
    (if x ∉ numeric then ["X-axis must be numeric for Scatter Plot"] else []) ++
    (match y with
     | some yc => if yc ∉ numeric then ["Y-axis must be numeric for Scatter Plot"] else []
     | none => ["Y-axis must be numeric for Scatter Plot"]) ++
    (match color with
     | some cc => if cc ∉ category then ["Color-by column must be categorical"] else []
     | none => [])
  | .line =>
    (if x ∉ category ++ numeric then
       ["X-axis must be categorical or numeric for Line Chart"]
     else []) ++
    (match y with
     | some yc => if yc ∉ numeric then ["Y-axis must be numeric for Line Chart"] else []
     | none => ["Y-axis must be numeric for Line Chart"])

/-- The full error list accumulated by `validate_columns` before its return
statement: chart-type errors first, then the missing-value loop. -/
def validateErrors (df : Frame) (ct : ChartType) (x : String)
    (y : Option String) (color : Option String) : List String :=
  chartTypeErrors df ct x y color ++ nullErrors df [some x, y, color]

/-- `validate_columns` from `src/nav/data2visual.py`: `return errors if errors
else None`. -/
def validate_columns (df : Frame) (ct : ChartType) (x : String)
    (y : Option String) (color : Option String) : Option (List String) :=
  let errors := validateErrors df ct x y color
  if errors.isEmpty then none else some errors

example :
    validate_columns [⟨"a", true, false⟩, ⟨"b", true, true⟩] .scatter "a"
      (some "b") none = some [missingValueError "b"] := by
  decide

/-- The y-axis options offered by the scatter-plot UI: the numeric columns
other than the selected x column
(`[col for col in numeric_cols if col != x_axis]`). -/
def scatterYOptions (df : Frame) (x : String) : List String :=
  (numericCols df).filter fun c => c != x

/-- The inline validation of the "Generate Visualization" handler: the
missing-value loop over the selected columns, then the pie value-column check,
then the scatter numeric checks.  The handler draws the chart if and only if
this list is empty. -/
def handlerValidationErrors (df : Frame) (ct : ChartType) (x : String)
    (y : Option String) (color : Option String) : List String :=
  let numeric := numericCols df
  nullErrors df [some x, y, if ct = .scatter then color else none] ++
  (match ct, y with
   | .pie, some v =>
     if v ∉ numeric then ["Pie Chart value column must be numeric"] else []
   | _, _ => []) ++
  (if ct = .scatter then
     (if x ∉ numeric then ["Scatter Plot X-axis must be numeric"] else []) ++
     (match y with
      | some yc => if yc ∉ numeric then ["Scatter Plot Y-axis must be numeric"] else []
      | none => ["Scatter Plot Y-axis must be numeric"])
   else [])

/-- Lexicographic order on character lists, the order Python uses on
strings (pandas sorts group keys with it). -/
def lexLe : List Char → List Char → Bool
  | [], _ => true
  | _ :: _, [] => false
  | a :: as, b :: bs => if a < b then true else if a = b then lexLe as bs else false

/-- Lexicographic order on strings by code point. -/
def strLe (a b : String) : Bool :=
  lexLe a.data b.data

/-- The aggregation methods offered for grouped charts. -/
inductive AggMethod where
  | sum
  | mean
  | count
  | median
deriving DecidableEq, Repr

/-- The reduction a pandas `agg` applies to the y values of one group:
`sum`, statistical `mean`, row `count`, statistical `median` (middle element
of the sorted values, or the mean of the two middle elements). -/
def aggFn : AggMethod → List ℚ → ℚ
  | .sum, ys => ys.sum
  | .mean, ys => ys.sum / ys.length
  | .count, ys => ys.length
  | .median, ys =>
    let sorted := ys.insertionSort (· ≤ ·)
    if ys.length % 2 = 1 then sorted.getD (ys.length / 2) 0
    else (sorted.getD (ys.length / 2 - 1) 0 + sorted.getD (ys.length / 2) 0) / 2

/-- `df.groupby(x)[y].agg(m)` over rows `(x value, y value)`: the distinct x
values in ascending order (pandas sorts group keys), each paired with the
reduction of the y values of its rows. -/
def aggregateBy (m : AggMethod) (rows : List (String × ℚ)) : List (String × ℚ) :=
  let keys := ((rows.map Prod.fst).dedup).insertionSort fun a b => strLe a b
  keys.map fun k => (k, aggFn m ((rows.filter fun r => r.1 == k).map Prod.snd))

/-- The Column Chart branch: aggregate only when an aggregation method is
selected (`agg_method != "None"`). -/
def columnChartData (agg : Option AggMethod) (rows : List (String × ℚ)) :
    List (String × ℚ) :=
  match agg with
  | none => rows
  | some m => aggregateBy m rows

/-- The Pie Chart branch with a numeric value column: group, aggregate, then
`sort_values(value_col, ascending=False)`. -/
def pieChartWithValue (m : AggMethod) (rows : List (String × ℚ)) :
    List (String × ℚ) :=
  (aggregateBy m rows).insertionSort fun a b => b.2 ≤ a.2

/-- `plot_df[x_axis].value_counts()`: the frequency of each category, sorted
by descending count (the Pie Chart branch without a numeric value column). -/
def valueCounts (cats : List String) : List (String × Nat) :=
  ((cats.dedup).map fun k => (k, (cats.filter fun c => c == k).length)).insertionSort
    fun a b => b.2 ≤ a.2

/-- The pie-chart value/aggregation selection of the sidebar: with no numeric
columns the value column is `None` and the aggregation is forced to `count`;
otherwise the user's choices stand. -/
def pieSelection (numeric : List String) (chosenValue : String)
    (chosenAgg : AggMethod) : Option String × AggMethod :=
  if numeric.isEmpty then (none, .count) else (some chosenValue, chosenAgg)

example :
    columnChartData (some .sum) [("A", 10), ("A", 20), ("B", 30)] =
      [("A", 30), ("B", 30)] := by
  simp only [columnChartData, aggregateBy, aggFn, List.map_cons, List.map_nil,
    List.dedup_cons_of_mem, List.mem_cons, List.mem_singleton, List.dedup_nil,
    List.insertionSort, List.orderedInsert, List.filter_cons, List.filter_nil]
  rw [if_pos (by decide)]
  simp
  norm_num

example : valueCounts ["x", "y", "y"] = [("y", 2), ("x", 1)] := by decide

/-! ## Lemmas: whitespace collapsing -/

/-- First character (if any) is not whitespace. -/
def headNotSpace : List Char → Bool
  | [] => true
  | c :: _ => !isSpaceChar c

/-- Collapsed form: every whitespace character is a space and no two adjacent
characters are both whitespace. -/
def okC : List Char → Bool
  | [] => true
  | c :: l => (!isSpaceChar c || (c == ' ' && headNotSpace l)) && okC l

theorem nl_not_mem_collapseWsAux (b : Bool) (l : List Char) :
    '\n' ∉ collapseWsAux b l := by
  induction l generalizing b with
  | nil => simp [collapseWsAux]
  | cons c cs ih =>
    by_cases h : isSpaceChar c
    · cases b <;> simp [collapseWsAux, h, ih]
    · have hc : c ≠ '\n' := by
        intro e
        rw [e] at h
        exact h (by decide)
      simp [collapseWsAux, h, ih]
      exact fun e => (hc e.symm).elim

theorem headNotSpace_collapseWsAux_true (l : List Char) :
    headNotSpace (collapseWsAux true l) = true := by
  induction l with
  | nil => rfl
  | cons c cs ih =>
    by_cases h : isSpaceChar c
    · simpa [collapseWsAux, h] using ih
    · simp [collapseWsAux, h, headNotSpace]

theorem collapseWsAux_true_of_headNotSpace (l : List Char)
    (h : headNotSpace l = true) : collapseWsAux true l = collapseWsAux false l := by
  cases l with
  | nil => rfl
  | cons c cs =>
    have hc : isSpaceChar c = false := by simpa [headNotSpace] using h
    simp [collapseWsAux, hc]

theorem okC_collapseWsAux (b : Bool) (l : List Char) :
    okC (collapseWsAux b l) = true := by
  induction l generalizing b with
  | nil => rfl
  | cons c cs ih =>
    by_cases h : isSpaceChar c
    · cases b with
      | true => simpa [collapseWsAux, h] using ih true
      | false =>
        simp only [collapseWsAux, h, if_true, if_false]
        simp only [List.singleton_append, okC]
        simp [headNotSpace_collapseWsAux_true, ih true]
    · simp [collapseWsAux, h, okC, ih false]

theorem okC_tail {c : Char} {l : List Char} (h : okC (c :: l) = true) :
    okC l = true := by
  simp only [okC, Bool.and_eq_true] at h
  exact h.2

theorem okC_append_left {a b : List Char} (h : okC (a ++ b) = true) :
    okC a = true := by
  induction a with
  | nil => rfl
  | cons c a' ih =>
    simp only [List.cons_append, okC, Bool.and_eq_true, Bool.or_eq_true] at h ⊢
    obtain ⟨h1, h2⟩ := h
    refine ⟨?_, ih h2⟩
    rcases h1 with h1 | h1
    · exact Or.inl h1
    · refine Or.inr ⟨h1.1, ?_⟩
      cases a' with
      | nil => rfl
      | cons d a'' => simpa [headNotSpace] using h1.2

theorem okC_append_right {a b : List Char} (h : okC (a ++ b) = true) :
    okC b = true := by
  induction a with
  | nil => exact h
  | cons c a' ih =>
    exact ih (okC_tail (by simpa using h))

theorem okC_collapse_id {l : List Char} (h : okC l = true) :
    collapseWsAux false l = l := by
  induction l with
  | nil => rfl
  | cons c cs ih =>
    simp only [okC, Bool.and_eq_true, Bool.or_eq_true] at h
    obtain ⟨h1, h2⟩ := h
    by_cases hs : isSpaceChar c
    · rcases h1 with h1 | h1
      · simp [hs] at h1
      · obtain ⟨hc, hh⟩ := h1
        have hc' : c = ' ' := by simpa using hc
        subst hc'
        simp [collapseWsAux, hs, collapseWsAux_true_of_headNotSpace cs hh, ih h2]
    · simp [collapseWsAux, hs, ih h2]

theorem limitNlAux_id {l : List Char} (h : '\n' ∉ l) : limitNlAux 0 l = l := by
  induction l with
  | nil => rfl
  | cons c cs ih =>
    have hc : (c == '\n') = false := by
      simp only [beq_eq_false_iff_ne, ne_eq]
      intro e
      exact h (by simp [e])
    have ih' := ih fun m => h (List.mem_cons_of_mem _ m)
    simp [limitNlAux, hc, emitNl, ih']

theorem limitNewlines_id {l : List Char} (h : '\n' ∉ l) : limitNewlines l = l :=
  limitNlAux_id h

/-! ## Lemmas: stripping -/

theorem headNotSpace_dropWhile (l : List Char) :
    headNotSpace (l.dropWhile isSpaceChar) = true := by
  induction l with
  | nil => rfl
  | cons c cs ih =>
    by_cases h : isSpaceChar c
    · simpa [List.dropWhile_cons, h] using ih
    · simp [List.dropWhile_cons, h, headNotSpace]

theorem dropWhile_eq_self_of_headNotSpace {l : List Char}
    (h : headNotSpace l = true) : l.dropWhile isSpaceChar = l := by
  cases l with
  | nil => rfl
  | cons c cs =>
    have : isSpaceChar c = false := by simpa [headNotSpace] using h
    simp [List.dropWhile_cons, this]

/-- The trailing whitespace removed by the second pass of `pyStrip`. -/
def stripTail (l : List Char) : List Char :=
  ((l.dropWhile isSpaceChar).reverse.takeWhile isSpaceChar).reverse

theorem pyStrip_decomp (l : List Char) :
    l.dropWhile isSpaceChar = pyStrip l ++ stripTail l := by
  conv_lhs => rw [← (l.dropWhile isSpaceChar).reverse_reverse,
    ← List.takeWhile_append_dropWhile isSpaceChar (l.dropWhile isSpaceChar).reverse]
  rw [List.reverse_append]
  rfl

theorem stripTail_spaces {l : List Char} {c : Char} (h : c ∈ stripTail l) :
    isSpaceChar c = true := by
  have := List.mem_reverse.mp h
  exact List.mem_takeWhile_imp this

theorem mem_of_mem_dropWhile {l : List Char} {c : Char}
    (h : c ∈ l.dropWhile isSpaceChar) : c ∈ l := by
  have : c ∈ l.takeWhile isSpaceChar ++ l.dropWhile isSpaceChar :=
    List.mem_append_right _ h
  rwa [List.takeWhile_append_dropWhile] at this

theorem mem_of_mem_pyStrip {l : List Char} {c : Char} (h : c ∈ pyStrip l) :
    c ∈ l := by
  apply mem_of_mem_dropWhile
  rw [pyStrip_decomp l]
  exact List.mem_append_left _ h

theorem headNotSpace_pyStrip (l : List Char) :
    headNotSpace (pyStrip l) = true := by
  cases hp : pyStrip l with
  | nil => rfl
  | cons c cs =>
    have hd := headNotSpace_dropWhile l
    rw [pyStrip_decomp l, hp] at hd
    simpa [headNotSpace] using hd

theorem pyStrip_idem (l : List Char) : pyStrip (pyStrip l) = pyStrip l := by
  have h1 : (pyStrip l).dropWhile isSpaceChar = pyStrip l :=
    dropWhile_eq_self_of_headNotSpace (headNotSpace_pyStrip l)
  have h2 : (pyStrip l).reverse.dropWhile isSpaceChar = (pyStrip l).reverse := by
    rw [show (pyStrip l).reverse = (l.dropWhile isSpaceChar).reverse.dropWhile isSpaceChar from by
      rw [pyStrip, List.reverse_reverse]]
    exact dropWhile_eq_self_of_headNotSpace (headNotSpace_dropWhile _)
  conv_lhs => rw [pyStrip]
  rw [h1, h2, List.reverse_reverse]

theorem okC_pyStrip {l : List Char} (h : okC l = true) :
    okC (pyStrip l) = true := by
  have h1 : okC (l.dropWhile isSpaceChar) = true := by
    have := h
    rw [← List.takeWhile_append_dropWhile isSpaceChar l] at this
    exact okC_append_right this
  rw [pyStrip_decomp l] at h1
  exact okC_append_left h1

/-! ## Lemmas: clean_text -/

theorem nl_not_mem_collapseWs (s : List Char) : '\n' ∉ collapseWs s :=
  nl_not_mem_collapseWsAux false s

theorem clean_text_eq_strip_collapse (s : List Char) :
    clean_text s = pyStrip (collapseWs s) := by
  rw [clean_text, limitNewlines_id (nl_not_mem_collapseWs s)]

theorem nl_not_mem_clean_text (s : List Char) : '\n' ∉ clean_text s := by
  rw [clean_text_eq_strip_collapse]
  intro h
  exact nl_not_mem_collapseWsAux false s (mem_of_mem_pyStrip h)

/-- C1 (code bug): the source performs `re.sub(r'\s+', ' ', text)` *before*
`re.sub(r'\n{3,}', '\n\n', text)`, so the first substitution has already
turned every newline into a space by the time the newline rule runs: on the
input `"A\n\n\nB"`, whose two non-whitespace blocks are separated by a blank
line, the cleaned output is `"A B"`, and in general no newline at all — in
particular no literal two-newline separator — ever survives `clean_text`. -/
theorem clean_text_newline_order_bug :
    clean_text "A\n\n\nB".data = "A B".data ∧
      ∀ s : List Char, '\n' ∉ clean_text s :=
  ⟨by decide, nl_not_mem_clean_text⟩

/-- C9: `clean_text` is idempotent: cleaning an already-cleaned text returns
it unchanged. -/
theorem clean_text_idempotent :
    ∀ s : List Char, clean_text (clean_text s) = clean_text s := by
  intro s
  have hA : clean_text s = pyStrip (collapseWs s) := clean_text_eq_strip_collapse s
  have hok : okC (clean_text s) = true := by
    rw [hA]
    exact okC_pyStrip (okC_collapseWsAux false s)
  calc clean_text (clean_text s)
      = pyStrip (limitNewlines (collapseWs (clean_text s))) := rfl
    _ = pyStrip (limitNewlines (clean_text s)) := by
        rw [show collapseWs (clean_text s) = clean_text s from okC_collapse_id hok]
    _ = pyStrip (clean_text s) := by
        rw [limitNewlines_id (nl_not_mem_clean_text s)]
    _ = pyStrip (pyStrip (collapseWs s)) := by rw [hA]
    _ = pyStrip (collapseWs s) := pyStrip_idem _
    _ = clean_text s := hA.symm

/-! ## Header deduplication (C3) -/

/-- C3 (code bug): the dedup loop does not guarantee pairwise distinct
labels.  On the raw header row `["A", "A", "A_1"]` the second `"A"` is
renamed to `"A_1"`, which collides with the literal third header `"A_1"`
(fresh at that point, hence kept verbatim): the output `["A", "A_1", "A_1"]`
contains a duplicate, contradicting the uniqueness invariant the code's own
comment ("Generate unique column names") and the spec both state. -/
theorem unique_headers_duplicate_bug :
    unique_headers [some "A", some "A", some "A_1"] = ["A", "A_1", "A_1"] ∧
      ¬ (unique_headers [some "A", some "A", some "A_1"]).Nodup := by
  decide

/-! ## Scatter-plot validation (C2, C10) -/

/-- C2 (counterexample): on a frame with numeric, null-free columns `a`, `b`,
a scatter-plot spec selecting `a` for both axes passes `validate_columns`
without any error — the claim that `validate` always flags `x = y` for
scatter plots is false. -/
theorem validate_columns_scatter_xy_counterexample :
    validate_columns [⟨"a", true, false⟩, ⟨"b", true, false⟩] .scatter "a"
      (some "a") none = none := by
  decide

/-- C2 (amended): for a scatter-plot spec whose x column is numeric and free
of missing values, selecting the same column for y produces no error, neither
from `validate_columns` nor from the inline validation of the Generate
Visualization handler (so the draw step is reached); the `x ≠ y` constraint is
enforced only by the UI, which removes the selected x column from the y-axis
options. -/
theorem validate_columns_scatter_xy_unchecked (df : Frame) (x : String)
    (hx : x ∈ numericCols df) (hn : colHasNull df x = false) :
    validate_columns df .scatter x (some x) none = none ∧
      handlerValidationErrors df .scatter x (some x) none = [] ∧
      x ∉ scatterYOptions df x := by
  refine ⟨?_, ?_, ?_⟩
  · simp [validate_columns, validateErrors, chartTypeErrors, nullErrors, hx, hn]
  · simp [handlerValidationErrors, nullErrors, hx, hn]
  · simp [scatterYOptions]

/-- Witness for `validate_columns_scatter_xy_unchecked` at a concrete
two-column numeric frame. -/
theorem validate_columns_scatter_xy_unchecked_witness :
    validate_columns [⟨"a", true, false⟩, ⟨"b", true, true⟩] .scatter "a"
      (some "a") none = none ∧
      handlerValidationErrors [⟨"a", true, false⟩, ⟨"b", true, true⟩] .scatter
        "a" (some "a") none = [] ∧
      "a" ∉ scatterYOptions [⟨"a", true, false⟩, ⟨"b", true, true⟩] "a" :=
  validate_columns_scatter_xy_unchecked _ "a" (by decide) (by decide)

/-- C10: `validate_columns` returns `None` exactly when no validation rule
fired, and otherwise the non-empty list of collected error strings — it never
returns an empty list. -/
theorem validate_columns_none_or_nonempty (df : Frame) (ct : ChartType)
    (x : String) (y : Option String) (color : Option String) :
    (validate_columns df ct x y color = none ↔
      validateErrors df ct x y color = []) ∧
      ∀ l, validate_columns df ct x y color = some l → l ≠ [] := by
  unfold validate_columns
  by_cases h : validateErrors df ct x y color = []
  · simp [h]
  · have h' : (validateErrors df ct x y color).isEmpty = false := by
      simpa [← Bool.not_eq_true, List.isEmpty_iff] using h
    simp only [h', if_false, Bool.false_eq_true]
    refine ⟨by simp [h], ?_⟩
    intro l hl
    rw [Option.some.injEq] at hl
    rw [← hl]
    exact h

/-- Witness for `validate_columns_none_or_nonempty`: a single non-numeric
column frame with a scatter spec yields a concrete non-empty error list. -/
theorem validate_columns_none_or_nonempty_witness :
    ["X-axis must be numeric for Scatter Plot",
      "Y-axis must be numeric for Scatter Plot"] ≠ ([] : List String) :=
  (validate_columns_none_or_nonempty [⟨"a", false, false⟩] .scatter "a" none
    none).2 _ (by decide)

/-! ## Lemmas: pySplit is insensitive to stripping -/

theorem pySplitAux_all_space {t : List Char} (ht : ∀ c ∈ t, isSpaceChar c = true)
    (cur : List Char) :
    pySplitAux cur t = if cur.isEmpty then [] else [cur.reverse] := by
  induction t generalizing cur with
  | nil => rfl
  | cons d ds ih =>
    have hd : isSpaceChar d = true := ht d (List.mem_cons_self _ _)
    have ih' := ih (fun c hc => ht c (List.mem_cons_of_mem _ hc)) ([] : List Char)
    simp only [pySplitAux, hd, if_true]
    rw [ih']
    simp

theorem pySplitAux_dropWhile (l : List Char) :
    pySplitAux [] (l.dropWhile isSpaceChar) = pySplitAux [] l := by
  induction l with
  | nil => rfl
  | cons c cs ih =>
    by_cases h : isSpaceChar c
    · rw [List.dropWhile_cons_of_pos h, ih]
      simp [pySplitAux, h]
    · rw [List.dropWhile_cons_of_neg (by simp [h])]

theorem pySplitAux_append_space {t : List Char}
    (ht : ∀ c ∈ t, isSpaceChar c = true) (s cur : List Char) :
    pySplitAux cur (s ++ t) = pySplitAux cur s := by
  induction s generalizing cur with
  | nil =>
    rw [List.nil_append, pySplitAux_all_space ht cur]
    rfl
  | cons c cs ih =>
    rw [List.cons_append]
    by_cases h : isSpaceChar c <;> simp [pySplitAux, h, List.append_eq, ih]

theorem pySplit_pyStrip (l : List Char) : pySplit (pyStrip l) = pySplit l := by
  unfold pySplit
  rw [← pySplitAux_dropWhile l, pyStrip_decomp l,
    pySplitAux_append_space (fun c hc => stripTail_spaces hc) (pyStrip l) []]

/-! ## Lemmas: section invariants (C5) -/

theorem keptSections_invariant {segs : List (List Char)} {ty : String}
    {s : StructuredSection} (h : s ∈ keptSections segs ty) :
    5 < (pySplit s.content).length ∧ s.length = s.content.length := by
  unfold keptSections at h
  rw [List.mem_map] at h
  obtain ⟨seg, hseg, rfl⟩ := h
  rw [List.mem_filter] at hseg
  have h5 : 5 < (pySplit seg).length := by
    have := hseg.2
    simp only [Bool.and_eq_true, decide_eq_true_eq] at this
    exact this.2
  exact ⟨by simpa [pySplit_pyStrip seg] using h5, rfl⟩

theorem convertAI_invariant {es : List JsonEntry} {s : StructuredSection}
    (h : s ∈ (convertAI es).1) :
    5 < (pySplit s.content).length ∧ s.length = s.content.length := by
  induction es with
  | nil => simp [convertAI] at h
  | cons e rest ih =>
    cases e with
    | bad => simp [convertAI] at h
    | good c ty hd =>
      simp only [convertAI, List.mem_append] at h
      rcases h with h | h
      · by_cases hc : 0 < (pyStrip (c.getD [])).length ∧
            5 < (pySplit (pyStrip (c.getD []))).length
        · rw [if_pos hc, List.mem_singleton] at h
          subst h
          exact ⟨hc.2, rfl⟩
        · rw [if_neg hc] at h
          simp at h
      · exact ih h

theorem loopPatterns_invariant {t : List Char} {ps : List RePattern}
    {s : StructuredSection} (h : s ∈ loopPatterns t ps) :
    5 < (pySplit s.content).length ∧ s.length = s.content.length := by
  induction ps with
  | nil => simp [loopPatterns] at h
  | cons p ps ih =>
    unfold loopPatterns at h
    by_cases hl : 1 < (reSplit p t).length
    · rw [if_pos hl] at h
      exact keptSections_invariant h
    · rw [if_neg hl] at h
      exact ih h

theorem fallbackStructure_invariant {s0 : List StructuredSection}
    {t : List Char} {s : StructuredSection} (h : s ∈ fallbackStructure s0 t) :
    s ∈ s0 ∨ (5 < (pySplit s.content).length ∧ s.length = s.content.length) := by
  unfold fallbackStructure at h
  by_cases he : (s0 ++ loopPatterns t section_patterns).isEmpty
  · rw [if_pos he] at h
    exact Or.inr (keptSections_invariant h)
  · rw [if_neg he] at h
    rcases List.mem_append.mp h with h | h
    · exact Or.inl h
    · exact Or.inr (loopPatterns_invariant h)

/-- C5: in both AI-assisted and heuristic modes, every section returned by
`structure_text` has content with strictly more than 5 whitespace-separated
tokens, and its `length` field equals the character length of its content. -/
theorem structure_text_section_invariant (o : AIOutcome) (t : List Char)
    (s : StructuredSection) (h : s ∈ structure_text o t) :
    5 < (pySplit s.content).length ∧ s.length = s.content.length := by
  cases o with
  | noAI =>
    rcases fallbackStructure_invariant h with h' | h'
    · simp at h'
    · exact h'
  | failEarly =>
    rcases fallbackStructure_invariant h with h' | h'
    · simp at h'
    · exact h'
  | response es =>
    simp only [structure_text] at h
    by_cases hb : (convertAI es).2
    · rw [if_pos hb] at h
      rcases fallbackStructure_invariant h with h' | h'
      · exact convertAI_invariant h'
      · exact h'
    · rw [if_neg hb] at h
      by_cases hempty : (convertAI es).1.isEmpty
      · rw [if_pos hempty] at h
        rcases fallbackStructure_invariant h with h' | h'
        · simp at h'
        · exact h'
      · rw [if_neg hempty] at h
        exact convertAI_invariant h

/-- Witness for `structure_text_section_invariant` on a concrete heuristic
run. -/
theorem structure_text_section_invariant_witness :
    5 < (pySplit (⟨"a b c d e f g".data, "paragraph", 13, ""⟩ :
        StructuredSection).content).length ∧
      (⟨"a b c d e f g".data, "paragraph", 13, ""⟩ :
        StructuredSection).length =
        (⟨"a b c d e f g".data, "paragraph", 13, ""⟩ :
          StructuredSection).content.length :=
  structure_text_section_invariant .noAI "a b c d e f g".data _ (by decide)

/-! ## Pattern priority (C6) -/

theorem loopPatterns_eq_find (t : List Char) (ps : List RePattern) :
    loopPatterns t ps =
      match ps.find? (fun p => decide (1 < (reSplit p t).length)) with
      | some p => keptSections (reSplit p t) "section"
      | none => [] := by
  induction ps with
  | nil => rfl
  | cons p ps ih =>
    by_cases h : 1 < (reSplit p t).length
    · rw [List.find?_cons_of_pos _ (by simpa using h)]
      simp only [loopPatterns, if_pos h]
    · rw [List.find?_cons_of_neg _ (by simpa using h)]
      simp only [loopPatterns, if_neg h]
      exact ih

/-- C6 (amended): the heuristic fallback uses the first pattern whose split
produces more than one segment, with kept segments typed `"section"` and
later patterns ignored — but when that winning pattern's kept segments are
*all* filtered out (or no pattern splits at all), the blank-line paragraph
splitter runs and its kept segments are typed `"paragraph"`. -/
theorem heuristic_first_pattern_wins (t : List Char) :
    fallbackStructure [] t =
      match section_patterns.find? (fun p => decide (1 < (reSplit p t).length)) with
      | some p =>
        if (keptSections (reSplit p t) "section").isEmpty then
          keptSections (reSplit patParagraph t) "paragraph"
        else keptSections (reSplit p t) "section"
      | none => keptSections (reSplit patParagraph t) "paragraph" := by
  unfold fallbackStructure
  rw [List.nil_append, loopPatterns_eq_find]
  cases hf : section_patterns.find? (fun p => decide (1 < (reSplit p t).length)) with
  | none => simp
  | some p => rfl

/-- C6 (counterexample): on `"a b c\nMY HEADING:\nd e f\n"` the colon-heading
pattern is the first to split (into two segments, both with at most 5 tokens,
hence both dropped), so the claim says the result consists of that pattern's
kept `"section"` segments, i.e. is empty; but the code, finding `structured`
still empty, runs the paragraph splitter and returns a `"paragraph"`
section. -/
theorem heuristic_first_pattern_wins_counterexample :
    1 < (reSplit patColon "a b c\nMY HEADING:\nd e f\n".data).length ∧
      (reSplit patAllCaps "a b c\nMY HEADING:\nd e f\n".data).length = 1 ∧
      (reSplit patNumbered "a b c\nMY HEADING:\nd e f\n".data).length = 1 ∧
      (reSplit patUnderlined "a b c\nMY HEADING:\nd e f\n".data).length = 1 ∧
      keptSections (reSplit patColon "a b c\nMY HEADING:\nd e f\n".data)
        "section" = [] ∧
      structure_text .noAI "a b c\nMY HEADING:\nd e f\n".data =
        [⟨"a b c\nMY HEADING:\nd e f".data, "paragraph", 23, ""⟩] := by
  decide

/-! ## Fallback on AI failure (C4) -/

/-- C4 (amended): whenever the AI call fails before any section has been
converted, or the conversion survives with zero sections, `structure_text`
returns exactly the heuristic result for the same text (and, the model being
total, no failure propagates).  A failure occurring *after* some sections
were already converted instead yields those sections followed by the
pattern-split sections, see the counterexample. -/
theorem structure_text_fallback_on_failure (t : List Char) (o : AIOutcome)
    (h : o = .failEarly ∨ ∃ es, o = .response es ∧ (convertAI es).1 = []) :
    structure_text o t = fallbackStructure [] t := by
  rcases h with rfl | ⟨es, rfl, hes⟩
  · rfl
  · simp only [structure_text]
    by_cases hb : (convertAI es).2
    · rw [if_pos hb, hes]
    · rw [if_neg hb, hes]
      simp

/-- Witness for `structure_text_fallback_on_failure`: an early failure on a
concrete text. -/
theorem structure_text_fallback_on_failure_witness :
    structure_text .failEarly "p q r s t u v".data =
      fallbackStructure [] "p q r s t u v".data :=
  structure_text_fallback_on_failure _ _ (Or.inl rfl)

/-- C4 (counterexample): an exception raised by the conversion loop *after* a
section has already been appended (here: a well-formed entry followed by a
non-object entry) is caught, but the result keeps the converted AI section and
is not the heuristic-mode result for the same text. -/
theorem structure_text_fallback_counterexample :
    structure_text
        (.response [.good (some "alpha beta gamma delta epsilon zeta eta".data)
          none none, .bad]) "h i j k l m n".data =
        [⟨"alpha beta gamma delta epsilon zeta eta".data, "section", 39, ""⟩] ∧
      structure_text .noAI "h i j k l m n".data =
        [⟨"h i j k l m n".data, "paragraph", 13, ""⟩] ∧
      structure_text
          (.response [.good (some "alpha beta gamma delta epsilon zeta eta".data)
            none none, .bad]) "h i j k l m n".data ≠
        structure_text .noAI "h i j k l m n".data := by
  decide

/-! ## Aggregation (C8, C7) -/

theorem lookup_map_self (f : String → ℚ) (keys : List String) (k : String) :
    List.lookup k (keys.map fun k' => (k', f k')) =
      if k ∈ keys then some (f k) else none := by
  induction keys with
  | nil => simp
  | cons a ks ih =>
    by_cases h : k = a
    · subst h
      simp [List.lookup]
    · have hki : (k == a) = false := by simp [h]
      simp only [List.map_cons, List.lookup, hki]
      rw [ih]
      by_cases hm : k ∈ ks
      · rw [if_pos hm, if_pos (List.mem_cons_of_mem _ hm)]
      · rw [if_neg hm, if_neg (by simp [h, hm])]

/-- C8: for a column chart with an aggregation selected, the rows are
partitioned by equality of the x value and each group's y values are reduced
with exactly the selected function: looking up any category in the result
yields the reduction of precisely the y values of the rows carrying that
category (and nothing for absent categories); in particular
`category:[A,A,B]`, `value:[10,20,30]` with `sum` yields `{A: 30, B: 30}`. -/
theorem column_chart_aggregation (m : AggMethod) (rows : List (String × ℚ))
    (k : String) :
    (List.lookup k (columnChartData (some m) rows) =
      if k ∈ rows.map Prod.fst then
        some (aggFn m ((rows.filter fun r => r.1 == k).map Prod.snd))
      else none) ∧
      columnChartData (some AggMethod.sum) [("A", 10), ("A", 20), ("B", 30)] =
        [("A", 30), ("B", 30)] := by
  constructor
  · show List.lookup k (aggregateBy m rows) = _
    unfold aggregateBy
    rw [lookup_map_self]
    have hmem : (k ∈ ((rows.map Prod.fst).dedup).insertionSort fun a b => strLe a b) ↔
        k ∈ rows.map Prod.fst := by
      rw [(List.perm_insertionSort _ _).mem_iff, List.mem_dedup]
    by_cases h : k ∈ rows.map Prod.fst
    · rw [if_pos (hmem.mpr h), if_pos h]
    · rw [if_neg fun hc => h (hmem.mp hc), if_neg h]
  · simp only [columnChartData, aggregateBy, aggFn, List.map_cons, List.map_nil,
      List.dedup_cons_of_mem, List.mem_cons, List.mem_singleton, List.dedup_nil,
      List.insertionSort, List.orderedInsert, List.filter_cons, List.filter_nil]
    rw [if_pos (by decide)]
    simp
    norm_num

instance : IsTotal (String × ℚ) fun a b => b.2 ≤ a.2 :=
  ⟨fun a b => le_total b.2 a.2⟩

instance : IsTrans (String × ℚ) fun a b => b.2 ≤ a.2 :=
  ⟨fun _ _ _ hab hbc => le_trans hbc hab⟩

instance : IsTotal (String × ℕ) fun a b => b.2 ≤ a.2 :=
  ⟨fun a b => le_total b.2 a.2⟩

instance : IsTrans (String × ℕ) fun a b => b.2 ≤ a.2 :=
  ⟨fun _ _ _ hab hbc => le_trans hbc hab⟩

/-- C7: pie-chart groups are ordered by descending aggregated value.  With a
numeric value column the grouped-and-aggregated series is sorted descending
(and contains exactly the aggregated groups); without one, the selection is
forced to `(None, count)` and `value_counts` returns each category with its
frequency, again sorted descending — so the largest slice always comes
first. -/
theorem pie_chart_sorted_descending (m : AggMethod) (rows : List (String × ℚ))
    (cats : List String) (v : String) (a : AggMethod) :
    (pieChartWithValue m rows).Sorted (fun p q => q.2 ≤ p.2) ∧
      (∀ kv, kv ∈ pieChartWithValue m rows ↔ kv ∈ aggregateBy m rows) ∧
      (valueCounts cats).Sorted (fun p q => q.2 ≤ p.2) ∧
      (∀ k n, (k, n) ∈ valueCounts cats ↔
        (k ∈ cats ∧ n = (cats.filter fun c => c == k).length)) ∧
      pieSelection [] v a = (none, .count) := by
  refine ⟨List.sorted_insertionSort _ _, ?_, List.sorted_insertionSort _ _, ?_, rfl⟩
  · intro kv
    exact (List.perm_insertionSort _ _).mem_iff
  · intro k n
    unfold valueCounts
    rw [(List.perm_insertionSort _ _).mem_iff, List.mem_map]
    constructor
    · rintro ⟨k', hk', he⟩
      rw [Prod.mk.injEq] at he
      obtain ⟨rfl, rfl⟩ := he
      exact ⟨List.mem_dedup.mp hk', rfl⟩
    · rintro ⟨hk, rfl⟩
      exact ⟨k, List.mem_dedup.mpr hk, rfl⟩
